import Mathlib

set_option exponentiation.threshold 100000

/-!
# Stellarium: Pulsars plugin (`Pulsar.cpp`) and HiPS survey core (`StelHips.hpp`)

Shallow embedding of `Pulsar::Pulsar`, `Pulsar::getVMagnitude`,
`Pulsar::getVMagnitudeWithExtinction` and `Pulsar::getP1`, followed by a model of the
tile cache, the per-frame tile recursion and the bootstrap of `HipsSurvey`.

Numbers: the C++ `float` and `double` values are IEEE 754 binary32 and binary64 values
(`FP`), with signed zeros, subnormals, infinities and NaN; `+`, `*` and `/` round to
nearest, ties to even.  `int` attributes are `Int`.
-/

namespace Stellarium

/-! ## IEEE 754 binary floating point -/

/-- A binary floating-point format: `prec` significand bits, smallest positive value
`2 ^ (-bias)`, and `emax` the largest exponent of a finite value counted in units of
`2 ^ (-bias)` (the largest finite value is `(2 ^ prec - 1) * 2 ^ emax * 2 ^ (-bias)`). -/
structure FloatFormat where
  prec : Nat
  bias : Nat
  emax : Nat
deriving DecidableEq, Repr

/-- The C++ `float`: 24 significand bits, smallest value `2 ^ (-149)`, largest
`(2 ^ 24 - 1) * 2 ^ 104`. -/
def binary32 : FloatFormat := { prec := 24, bias := 149, emax := 253 }

/-- The C++ `double`: 53 significand bits, smallest value `2 ^ (-1074)`, largest
`(2 ^ 53 - 1) * 2 ^ 971`. -/
def binary64 : FloatFormat := { prec := 53, bias := 1074, emax := 2045 }

/-- A floating-point value: NaN, an infinity, or the finite value
`(-1) ^ neg * m * 2 ^ e * 2 ^ (-bias)` of its format (zero when `m = 0`, with its
sign). -/
inductive FP where
  | nan
  | inf (neg : Bool)
  | fin (neg : Bool) (m : Nat) (e : Nat)
deriving DecidableEq, Repr

/-- Positive zero, `0.0`. -/
def FP.zero : FP := FP.fin false 0 0

/-- Search upward from `F` for an `F` with `n < 2 ^ 2 ^ F`. -/
def levelsAux : Nat → Nat → Nat → Nat
  | 0, F, _ => F
  | fuel + 1, F, n => if n < 2 ^ 2 ^ F then F else levelsAux fuel (F + 1) n

/-- Binary search for the greatest `r` in `[k, k + 2 ^ f)` with `2 ^ r ≤ n`. -/
def log2Aux : Nat → Nat → Nat → Nat
  | 0, k, _ => k
  | f + 1, k, n => if 2 ^ (k + 2 ^ f) ≤ n then log2Aux f (k + 2 ^ f) n else log2Aux f k n

/-- Number of binary digits of `n` (`0` for `0`, otherwise `Nat.log2 n + 1`). -/
def bitLength (n : Nat) : Nat :=
  if n = 0 then 0 else log2Aux (levelsAux n 0 n) 0 n + 1

/-- Rounding to nearest, ties to even: the value of the format nearest to
`N * 2 ^ (-K) * 2 ^ (-bias)`, with sign `neg`.  `s` low bits of `N` are dropped: at
least `K`, and enough to leave `prec` bits; the result overflows to an infinity. -/
def FP.round (fmt : FloatFormat) (neg : Bool) (N K : Nat) : FP :=
  let s := max (bitLength N - fmt.prec) K
  let q := N / 2 ^ s
  let r := N % 2 ^ s
  let half := 2 ^ (s - 1)
  let m := if half < r ∨ (r = half ∧ q % 2 = 1) then q + 1 else q
  let e := s - K
  if m = 2 ^ fmt.prec then
    if fmt.emax < e + 1 then FP.inf neg else FP.fin neg (2 ^ (fmt.prec - 1)) (e + 1)
  else
    if fmt.emax < e then FP.inf neg else FP.fin neg m e

/-- A magnitude with its sign, as an integer. -/
def FP.signed (neg : Bool) (n : Nat) : Int := if neg then -(n : Int) else (n : Int)

/-- The value of the format nearest to the natural number `n` (a C++ literal such as
`6.f` or `1.0`). -/
def FP.ofNat (fmt : FloatFormat) (n : Nat) : FP := FP.round fmt false (n * 2 ^ fmt.bias) 0

/-- Unary minus. -/
def FP.neg : FP → FP
  | .nan => .nan
  | .inf n => .inf (!n)
  | .fin n m e => .fin (!n) m e

/-- IEEE 754 multiplication in a format. -/
def FP.mul (fmt : FloatFormat) : FP → FP → FP
  | .nan, _ => .nan
  | _, .nan => .nan
  | .inf n1, .inf n2 => .inf (n1 != n2)
  | .inf n1, .fin n2 m _ => if m = 0 then .nan else .inf (n1 != n2)
  | .fin n1 m _, .inf n2 => if m = 0 then .nan else .inf (n1 != n2)
  | .fin n1 m1 e1, .fin n2 m2 e2 =>
    FP.round fmt (n1 != n2) (m1 * m2 * 2 ^ (e1 + e2)) fmt.bias

/-- IEEE 754 division in a format.  The quotient is taken with one extra bit and a
sticky bit for the remainder, then rounded. -/
def FP.div (fmt : FloatFormat) : FP → FP → FP
  | .nan, _ => .nan
  | _, .nan => .nan
  | .inf _, .inf _ => .nan
  | .inf n1, .fin n2 _ _ => .inf (n1 != n2)
  | .fin n1 _ _, .inf n2 => .fin (n1 != n2) 0 0
  | .fin n1 m1 e1, .fin n2 m2 e2 =>
    if m2 = 0 then
      if m1 = 0 then .nan else .inf (n1 != n2)
    else
      let num := m1 * 2 ^ (e1 + fmt.bias + 1)
      let den := m2 * 2 ^ e2
      FP.round fmt (n1 != n2) (2 * (num / den) + (if num % den = 0 then 0 else 1)) 2

/-- IEEE 754 addition in a format.  An exact zero sum is `+0.0` unless both operands
are negative. -/
def FP.add (fmt : FloatFormat) : FP → FP → FP
  | .nan, _ => .nan
  | _, .nan => .nan
  | .inf n1, .inf n2 => if n1 = n2 then .inf n1 else .nan
  | .inf n1, .fin _ _ _ => .inf n1
  | .fin _ _ _, .inf n2 => .inf n2
  | .fin n1 m1 e1, .fin n2 m2 e2 =>
    let s := FP.signed n1 (m1 * 2 ^ e1) + FP.signed n2 (m2 * 2 ^ e2)
    if s = 0 then .fin (n1 && n2) 0 0
    else FP.round fmt (decide (s < 0)) s.natAbs 0

/-- The C++ `==` on two values of one format: NaN equals nothing, `-0.0 == 0.0`. -/
def FP.eq : FP → FP → Bool
  | .inf n1, .inf n2 => n1 == n2
  | .fin n1 m1 e1, .fin n2 m2 e2 => FP.signed n1 (m1 * 2 ^ e1) == FP.signed n2 (m2 * 2 ^ e2)
  | _, _ => false

/-- The C++ `<` on two values of one format; false when either is NaN. -/
def FP.lt : FP → FP → Bool
  | .nan, _ => false
  | _, .nan => false
  | .inf n1, .inf n2 => n1 && !n2
  | .inf n1, .fin _ _ _ => n1
  | .fin _ _ _, .inf n2 => !n2
  | .fin n1 m1 e1, .fin n2 m2 e2 =>
    decide (FP.signed n1 (m1 * 2 ^ e1) < FP.signed n2 (m2 * 2 ^ e2))

/-- The C++ `<=` on two values of one format. -/
def FP.le (a b : FP) : Bool := FP.lt a b || FP.eq a b

/-- The exact value of a finite floating-point value, as a rational. -/
def FP.toRat (fmt : FloatFormat) : FP → Option ℚ
  | .fin n m e => some ((FP.signed n (m * 2 ^ e) : ℚ) / 2 ^ fmt.bias)
  | _ => none

/-! ## Qt containers used by the constructor -/

/-- A `QVariant`, represented by what the four conversions used in `Pulsar.cpp`
return on it (`toString`, `toDouble`, `toFloat`, `toInt`). -/
structure QVariant where
  toString : String
  toDouble : FP
  toFloat : FP
  toInt : Int
deriving DecidableEq, Repr

/-- The default-constructed (invalid) `QVariant`, which `QMap::value` returns for an
absent key: every conversion gives the empty string or zero. -/
def QVariant.invalid : QVariant :=
  { toString := "", toDouble := FP.zero, toFloat := FP.zero, toInt := 0 }

/-- A `QVariantMap` (`QMap<QString, QVariant>`) as an association list; the first
entry with a given key is the one the map holds for it. -/
abbrev QVariantMap := List (String × QVariant)

/-- Embeds `QMap::contains`. -/
def QVariantMap.contains (map : QVariantMap) (key : String) : Bool :=
  map.any (fun e => e.1 == key)

/-- Embeds `QMap::value`: the stored value, or a default-constructed one. -/
def QVariantMap.value (map : QVariantMap) (key : String) : QVariant :=
  match map.find? (fun e => e.1 == key) with
  | some e => e.2
  | none => QVariant.invalid

/-! ## `Pulsar` -/

/-- The attributes of a `Pulsar` that the constructor sets (`Pulsar.cpp` 48-67).  The
attributes read with `toFloat()` hold binary32 values, the others binary64 values. -/
structure Pulsar where
  initialized : Bool
  designation : String
  RA : FP
  DE : FP
  parallax : FP
  period : FP
  frequency : FP
  pfrequency : FP
  pderivative : FP
  dmeasure : FP
  bperiod : FP
  eccentricity : FP
  w50 : FP
  s400 : FP
  s600 : FP
  s1400 : FP
  distance : FP
  glitch : Int
  notes : String
deriving DecidableEq, Repr

/-- The member-initialiser list of `Pulsar::Pulsar` (`Pulsar.cpp` 49-67). -/
def Pulsar.defaults : Pulsar :=
  { initialized := false
    designation := ""
    RA := FP.zero
    DE := FP.zero
    parallax := FP.zero
    period := FP.zero
    frequency := FP.zero
    pfrequency := FP.zero
    pderivative := FP.zero
    dmeasure := FP.zero
    bperiod := FP.zero
    eccentricity := FP.zero
    w50 := FP.zero
    s400 := FP.zero
    s600 := FP.zero
    s1400 := FP.zero
    distance := FP.zero
    glitch := -1
    notes := "" }

/-- Embeds `Pulsar::getP1` (`Pulsar.cpp` 310-321): derivative of the barycentric period,
`-1.0 * p0 * p0 * f1` in `double`, evaluated left to right. -/
def getP1 (p0 f1 : FP) : FP :=
  if FP.lt FP.zero p0 && !FP.eq f1 FP.zero then
    FP.mul binary64
      (FP.mul binary64 (FP.mul binary64 (FP.neg (FP.ofNat binary64 1)) p0) p0) f1
  else
    FP.zero

/-- Embeds `Pulsar::Pulsar(const QVariantMap& map)` (`Pulsar.cpp` 48-107).
`getDecAngle` is `StelUtils::getDecAngle`, which lives outside this file and is
taken as a parameter.  The two `qWarning()` lines of the rejecting branch write
to the log only and leave the object untouched. -/
def Pulsar.ofMap (getDecAngle : String → FP) (map : QVariantMap) : Pulsar :=
  if !map.contains "designation" || !map.contains "RA" || !map.contains "DE" then
    Pulsar.defaults
  else
    let period := (map.value "period").toDouble
    let frequency := (map.value "frequency").toDouble
    let pfrequency := (map.value "pfrequency").toDouble
    let pderivative := (map.value "pderivative").toDouble
    -- If barycentric period not set then calculate it
    let period :=
      if FP.eq period FP.zero && FP.lt FP.zero frequency then
        FP.div binary64 (FP.ofNat binary64 1) frequency
      else period
    -- If barycentric period derivative not set then calculate it
    let pderivative :=
      if FP.eq pderivative FP.zero then getP1 period pfrequency else pderivative
    { initialized := true
      designation := (map.value "designation").toString
      RA := getDecAngle (map.value "RA").toString
      DE := getDecAngle (map.value "DE").toString
      parallax := (map.value "parallax").toFloat
      period := period
      frequency := frequency
      pfrequency := pfrequency
      pderivative := pderivative
      dmeasure := (map.value "dmeasure").toDouble
      bperiod := (map.value "bperiod").toDouble
      eccentricity := (map.value "eccentricity").toDouble
      w50 := (map.value "w50").toFloat
      s400 := (map.value "s400").toFloat
      s600 := (map.value "s600").toFloat
      s1400 := (map.value "s1400").toFloat
      distance := (map.value "distance").toFloat
      glitch := (map.value "glitch").toInt
      notes := (map.value "notes").toString }

/-- Embeds `Pulsar::getVMagnitude` (`Pulsar.cpp` 276-290).  `distributionMode` is the static
flag `Pulsar::distributionMode`; the `core` argument is unused (`Q_UNUSED`).  The sum
`distance + 6.f` and the constant `3.f` are `float`. -/
def Pulsar.getVMagnitude (distributionMode : Bool) (p : Pulsar) : FP :=
  -- Calculate fake visual magnitude as function by distance - minimal magnitude is 6
  let vmag := FP.add binary32 p.distance (FP.ofNat binary32 6)
  if distributionMode then
    FP.ofNat binary32 3
  else
    vmag

/-- Embeds `Pulsar::getVMagnitudeWithExtinction` (`Pulsar.cpp` 292-295). -/
def Pulsar.getVMagnitudeWithExtinction (distributionMode : Bool) (p : Pulsar) : FP :=
  p.getVMagnitude distributionMode

/-! ## HiPS survey core

`StelHips.hpp` declares `HipsSurvey` (`tiles`, `parseProperties`, `getPropertyInt`,
`getAllsky`, `getTile`, `drawTile`, `fillArrays`, `draw`); the bodies are in
`StelHips.cpp`.  The definitions below follow the design text for those members. -/

/-- Modelled from the spec: the key of a tile, `(order, pix)` with
`pix` in `[0, 12 * 4 ^ order)` (the arguments of `HipsSurvey::getTile`, whose body is
missing). -/
structure TileKey where
  order : Nat
  pix : Nat
deriving DecidableEq, Repr

/-- Modelled from the spec: validity of a key, `pix < 12 * 4 ^ order`. -/
def TileKey.valid (key : TileKey) : Prop :=
  key.pix < 12 * 4 ^ key.order

instance (key : TileKey) : Decidable key.valid := by
  unfold TileKey.valid; infer_instance

/-- Modelled from the spec: the decoded image payload of a tile (missing `HipsTile`),
as a list of sample values. -/
abbrev Image := List Nat

/-- Modelled from the spec: the decode state of a `Tile` (missing `HipsTile`):
`Empty`, `Requested`, `Loaded` with its decoded payload, `Failed` with the number of
retry attempts remaining. -/
inductive TileState where
  | Empty
  | Requested
  | Loaded (payload : Image)
  | Failed (retriesLeft : Nat)
deriving DecidableEq, Repr

/-- Modelled from the spec: a tile is in flight while its fetch is outstanding, that
is in state `Requested` (missing `HipsTile`). -/
def TileState.inFlight : TileState → Bool
  | .Requested => true
  | _ => false

/-- Modelled from the spec: a tile holding a decoded payload (missing `HipsTile`). -/
def TileState.isLoaded : TileState → Bool
  | .Loaded _ => true
  | _ => false

/-- Modelled from the spec: one `Tile` of the cache (missing `HipsTile`): key, decode
state and last-access stamp. -/
structure Tile (κ : Type) where
  key : κ
  state : TileState
  lastAccess : Nat
deriving DecidableEq, Repr

/-- Modelled from the spec: the `TileCache` (missing: the use of `HipsSurvey::tiles`
in `StelHips.cpp`): a bounded key-to-tile store.  `tiles` are the resident tiles,
`clock` the access counter, `issued` the log of fetches handed to the fetcher. -/
structure TileCache (κ : Type) where
  capacity : Nat
  tiles : List (Tile κ)
  clock : Nat
  issued : List κ
deriving Repr

namespace TileCache

variable {κ : Type} [DecidableEq κ]

/-- Modelled from the spec: the empty cache of a given capacity (missing: the
construction of `HipsSurvey::tiles`). -/
def empty (capacity : Nat) : TileCache κ :=
  { capacity := capacity, tiles := [], clock := 0, issued := [] }

/-- Modelled from the spec: the number of resident tiles (missing: the cache
bookkeeping of `StelHips.cpp`). -/
def size (c : TileCache κ) : Nat := c.tiles.length

/-- Modelled from the spec: the resident tile stored under a key, if any (missing: the
lookup in `HipsSurvey::getTile`). -/
def find (c : TileCache κ) (key : κ) : Option (Tile κ) :=
  c.tiles.find? (fun t => decide (t.key = key))

/-- Modelled from the spec: the tiles eviction takes first: not in flight, and not
referenced by the in-progress frame (`inFrame`); missing: the eviction order of the
cache. -/
def dormant (inFrame : κ → Bool) (t : Tile κ) : Bool :=
  !t.state.inFlight && !inFrame t.key

/-- Modelled from the spec: the least recently used tile of a list, by access stamp
(the earliest one on a tie); missing: the eviction order of the cache. -/
def lruOf : List (Tile κ) → Option (Tile κ)
  | [] => none
  | t :: ts =>
    match lruOf ts with
    | none => some t
    | some u => if t.lastAccess ≤ u.lastAccess then some t else some u

/-- Modelled from the spec: the tile eviction removes next (missing: the eviction
order of the cache): the least recently used tile that is neither in flight nor
referenced by the frame; when there is none, the least recently used of all resident
tiles, so that the capacity is reached after every insertion (a tile evicted while its
fetch is in flight has its result dropped on completion). -/
def victim (inFrame : κ → Bool) (c : TileCache κ) : Option (Tile κ) :=
  match lruOf (c.tiles.filter (dormant inFrame)) with
  | some v => some v
  | none => lruOf c.tiles

/-- Modelled from the spec: the loop of `evict_if_needed()` (missing from `src/`), at
most `fuel` rounds: while the cache is over capacity, remove the next victim. -/
def evictLoop (inFrame : κ → Bool) : Nat → TileCache κ → TileCache κ
  | 0, c => c
  | fuel + 1, c =>
    if c.size ≤ c.capacity then c
    else
      match victim inFrame c with
      | none => c
      | some v =>
        evictLoop inFrame fuel
          { c with tiles := c.tiles.filter (fun t => decide (t.key ≠ v.key)) }

/-- Modelled from the spec: `evict_if_needed()` (missing from `src/`): removes
least-recently-used tiles, those not in flight first, until capacity is satisfied.
Every round removes a tile, so `size` rounds are enough. -/
def evict_if_needed (inFrame : κ → Bool) (c : TileCache κ) : TileCache κ :=
  evictLoop inFrame c.size c

/-- Modelled from the spec: `get_or_request(key)` (missing `HipsSurvey::getTile`):
a hit refreshes recency and returns the tile state; a miss creates the entry, puts it
in `Requested`, issues the fetch and runs `evict_if_needed`. -/
def get_or_request (inFrame : κ → Bool) (c : TileCache κ) (key : κ) :
    TileCache κ × TileState :=
  match c.find key with
  | some t =>
    ({ c with
        tiles := c.tiles.map (fun u => if u.key = key then { u with lastAccess := c.clock } else u)
        clock := c.clock + 1 },
      t.state)
  | none =>
    let t : Tile κ := { key := key, state := .Requested, lastAccess := c.clock }
    (evict_if_needed inFrame
        { c with
          tiles := c.tiles ++ [t]
          clock := c.clock + 1
          issued := c.issued ++ [key] },
      .Requested)

/-- Modelled from the spec: `complete(key, result)` (missing from `src/`): a
`Requested` tile becomes `Loaded` with the payload, or `Failed` with one retry
remaining; a result for a tile that is not resident and requested is dropped. -/
def complete (c : TileCache κ) (key : κ) (result : Option Image) : TileCache κ :=
  { c with
    tiles := c.tiles.map (fun u =>
      if u.key = key ∧ u.state = .Requested then
        { u with state := match result with
                          | some img => .Loaded img
                          | none => .Failed 1 }
      else u) }

/-- Modelled from the spec: a call on the cache, one of the two operations driven from
outside (missing: the callers in `StelHips.cpp`). -/
inductive Call (κ : Type) where
  | get_or_request (key : κ)
  | complete (key : κ) (result : Option Image)
deriving Repr

/-- Modelled from the spec: the effect of one call on the cache (missing: the callers
in `StelHips.cpp`). -/
def call (inFrame : κ → Bool) (c : TileCache κ) : Call κ → TileCache κ
  | .get_or_request key => (c.get_or_request inFrame key).1
  | .complete key result => c.complete key result

/-- Modelled from the spec: a finite sequence of calls, from the empty cache (missing:
the callers in `StelHips.cpp`). -/
def run (inFrame : κ → Bool) (capacity : Nat) (calls : List (Call κ)) : TileCache κ :=
  calls.foldl (call inFrame) (empty capacity)

end TileCache

/-! ### Per-frame tile selection -/

/-- Modelled from the spec: child `i` of a node (missing: the recursion of
`HipsSurvey::drawTile`): a key at `order + 1`.  The design text gives no formula for
the child's pixel index, so `childPix` is a parameter. -/
def child (childPix : TileKey → Fin 4 → Nat) (key : TileKey) (i : Fin 4) : TileKey :=
  { order := key.order + 1, pix := childPix key i }

/-- Modelled from the spec: `children(key)`, four keys at `order + 1` in the stable
index order 0..3. -/
def children (childPix : TileKey → Fin 4 → Nat) (key : TileKey) : List TileKey :=
  [child childPix key 0, child childPix key 1, child childPix key 2, child childPix key 3]

/-- Modelled from the spec: what the recursion did at a node (missing
`HipsSurvey::drawTile`): stopped by the cull, treated it as a leaf, or split it. -/
inductive NodeKind where
  | culled
  | leaf
  | split
deriving DecidableEq, Repr

/-- Modelled from the spec: one emitted quad (missing `HipsSurvey::fillArrays`): the leaf node it covers and the tile whose texture it samples
(`none`: no tile on the path from the root is loaded). -/
structure Quad where
  node : TileKey
  texture : Option TileKey
deriving DecidableEq, Repr

/-- Modelled from the spec: the state of one frame walk (missing
`HipsSurvey::drawTile`): the survey's cache, the geometry accumulated so far
and the nodes visited so far. -/
structure Frame where
  cache : TileCache TileKey
  quads : List Quad
  visited : List (TileKey × NodeKind)
deriving Repr

/-- Modelled from the spec: the resolution test of the recursion (missing
`HipsSurvey::drawTile`): the node's order meets the required order, or
`order == maxOrder`. -/
def isLeaf (maxOrder required : Nat) (key : TileKey) : Bool :=
  decide (required ≤ key.order) || decide (key.order = maxOrder)

/-- Modelled from the spec: the tiles referenced by the in-progress frame's draw, those
whose texture an accumulated quad samples (missing `HipsSurvey::drawTile`). -/
def Frame.references (fr : Frame) (key : TileKey) : Bool :=
  decide (some key ∈ fr.quads.map (fun q => q.texture))

/-- Modelled from the spec: what the recursion does at a leaf (missing
`HipsSurvey::drawTile` / `fillArrays`): request the tile through the cache; emit a
quad with the tile's own texture when it is `Loaded`, otherwise with the texture of
the nearest `Loaded` ancestor (`ancestors`, nearest first). -/
def drawLeaf (ancestors : List TileKey) (key : TileKey) (fr : Frame) : Frame :=
  let r := fr.cache.get_or_request fr.references key
  let texture :=
    if r.2.isLoaded then some key
    else ancestors.find? (fun a =>
      match r.1.find a with
      | some t => t.state.isLoaded
      | none => false)
  { cache := r.1
    quads := fr.quads ++ [{ node := key, texture := texture }]
    visited := fr.visited ++ [(key, .leaf)] }

/-- Modelled from the spec: the per-frame recursion (missing `HipsSurvey::drawTile`):
1. cull a node whose footprint misses the view region (`visible`);
2. resolution test `isLeaf`;
3. a leaf requests its tile and emits geometry;
4. otherwise recurse into the four children, emitting nothing at the node. -/
def drawTile (visible : TileKey → Bool) (childPix : TileKey → Fin 4 → Nat)
    (maxOrder required : Nat) (ancestors : List TileKey) (key : TileKey) (fr : Frame) : Frame :=
  if !visible key then
    { fr with visited := fr.visited ++ [(key, .culled)] }
  else if h : isLeaf maxOrder required key = true then
    drawLeaf ancestors key fr
  else
    let fr := { fr with visited := fr.visited ++ [(key, .split)] }
    let fr := drawTile visible childPix maxOrder required (key :: ancestors) (child childPix key 0) fr
    let fr := drawTile visible childPix maxOrder required (key :: ancestors) (child childPix key 1) fr
    let fr := drawTile visible childPix maxOrder required (key :: ancestors) (child childPix key 2) fr
    drawTile visible childPix maxOrder required (key :: ancestors) (child childPix key 3) fr
termination_by required - key.order
decreasing_by
  all_goals
    simp only [isLeaf, Bool.or_eq_true, decide_eq_true_eq, not_or, not_le] at h
    simp only [child]
    omega

/-- Modelled from the spec: the walk of one frame, from the twelve nodes of the
coarsest order (`pix` in `[0, 12 * 4 ^ 0)`). -/
def drawFrame (visible : TileKey → Bool) (childPix : TileKey → Fin 4 → Nat)
    (maxOrder required : Nat) (cache : TileCache TileKey) : Frame :=
  (List.range 12).foldl
    (fun fr p => drawTile visible childPix maxOrder required [] { order := 0, pix := p } fr)
    { cache := cache, quads := [], visited := [] }

/-- Modelled from the spec: the batches the geometry builder hands to the rendering
callback, one per texture sampled by the emitted quads. -/
def batches (quads : List Quad) : List (Option TileKey × List Quad) :=
  (quads.map (fun q => q.texture)).dedup.map
    (fun t => (t, quads.filter (fun q => decide (q.texture = t))))

/-! ### Survey bootstrap -/

/-- Modelled from the spec: the properties resource, a flat key-value text resource,
after tokenisation (missing: the reply handled in `StelHips.cpp`). -/
abbrev PropertiesResource := List (String × String)

/-- Modelled from the spec: the names of the required keys of the properties resource
and the reading of the optional all-sky declaration (missing
`HipsSurvey::parseProperties`); the design text fixes neither, so they are fields. -/
structure PropertyFormat where
  maxOrderKey : String
  tileFormatKey : String
  declaresAllsky : PropertiesResource → Bool

/-- Modelled from the spec: the parsed `SurveyProperties` consumed by the bootstrap
and the recursion (missing: what `HipsSurvey::parseProperties` stores). -/
structure SurveyProperties where
  maxOrder : Nat
  tileFormat : String
  hasAllsky : Bool
deriving DecidableEq, Repr

/-- Modelled from the spec: a well-formed natural-number value, one or more decimal
digits (missing `HipsSurvey::parseProperties`). -/
def parseNat (v : String) : Option Nat :=
  if v.data.isEmpty || !v.data.all Char.isDigit then none
  else some (v.data.foldl (fun n c => n * 10 + (c.toNat - 48)) 0)

/-- Modelled from the spec: a well-formed integer value, decimal digits with an
optional leading minus sign (missing `HipsSurvey::getPropertyInt`). -/
def parseInt (v : String) : Option Int :=
  match v.data with
  | '-' :: ds => (parseNat (String.mk ds)).map (fun n => -(n : Int))
  | _ => (parseNat v).map (fun n => (n : Int))

/-- Modelled from the spec: `HipsSurvey::getPropertyInt(key, fallback)` (declared in
`StelHips.hpp`, body missing): the integer value stored under `key`, or `fallback`. -/
def getPropertyInt (properties : PropertiesResource) (key : String) (fallback : Int) : Int :=
  match properties.lookup key with
  | some v => (parseInt v).getD fallback
  | none => fallback

/-- Modelled from the spec: `HipsSurvey::parseProperties` (body missing): the
maximum order and the tile format are required; a missing required key or a
malformed value is a parse failure. -/
def parseProperties (fmt : PropertyFormat) (res : PropertiesResource) :
    Option SurveyProperties :=
  match res.lookup fmt.maxOrderKey, res.lookup fmt.tileFormatKey with
  | some o, some f =>
    match parseNat o with
    | some n => some { maxOrder := n, tileFormat := f, hasAllsky := fmt.declaresAllsky res }
    | none => none
  | _, _ => none

/-- Modelled from the spec: the bootstrap states of a `Survey`. -/
inductive SurveyState where
  | Uninitialized
  | PropertiesRequested
  | PropertiesLoaded
  | PropertiesFailed
  | AllskyRequested
  | AllskyLoaded
  | AllskyFailed
deriving DecidableEq, Repr

/-- Modelled from the spec: the states in which normal draw is enabled: properties
loaded with no all-sky mosaic declared, all-sky loaded, or all-sky failed (which is
non-fatal). -/
def SurveyState.drawable : SurveyState → Bool
  | .PropertiesLoaded => true
  | .AllskyLoaded => true
  | .AllskyFailed => true
  | _ => false

/-- Modelled from the spec: a `Survey` (missing: the state kept by `HipsSurvey` in
`StelHips.cpp`): bootstrap state, parsed properties, all-sky image, tile cache. -/
structure Survey where
  state : SurveyState
  properties : Option SurveyProperties
  allsky : Option Image
  cache : TileCache TileKey
deriving Repr

/-- Modelled from the spec: a survey before its bootstrap (missing
`HipsSurvey::HipsSurvey`). -/
def Survey.new (capacity : Nat) : Survey :=
  { state := .Uninitialized, properties := none, allsky := none,
    cache := TileCache.empty capacity }

/-- Modelled from the spec: what happens to a survey (missing: the slots and callers
of `HipsSurvey` in `StelHips.cpp`): the bootstrap is started, a fetch completes, or a frame
is drawn with a view region (`visible`) and a required order. -/
inductive SurveyEvent where
  | start
  | propertiesFetched (result : Option PropertiesResource)
  | allskyFetched (result : Option Image)
  | tileFetched (key : TileKey) (result : Option Image)
  | draw (visible : TileKey → Bool) (required : Nat)

/-- Modelled from the spec: what one call of `draw()` hands out (missing
`HipsSurvey::draw`): the emitted quads and the batches passed to
the draw callback (one invocation per batch). -/
structure DrawOutput where
  quads : List Quad
  callbacks : List (Option TileKey × List Quad)
deriving DecidableEq, Repr

/-- Modelled from the spec: the output of an event that draws nothing (missing
`HipsSurvey::draw`). -/
def DrawOutput.nothing : DrawOutput := { quads := [], callbacks := [] }

/-- Modelled from the spec: `HipsSurvey::draw` (body missing): nothing unless the
survey is drawable; otherwise one frame walk bounded by the survey's maximum order,
flushed to the callback once per texture. -/
def Survey.draw (childPix : TileKey → Fin 4 → Nat) (s : Survey)
    (visible : TileKey → Bool) (required : Nat) : Survey × DrawOutput :=
  if s.state.drawable then
    match s.properties with
    | some p =>
      let fr := drawFrame visible childPix p.maxOrder required s.cache
      ({ s with cache := fr.cache }, { quads := fr.quads, callbacks := batches fr.quads })
    | none => (s, DrawOutput.nothing)
  else
    (s, DrawOutput.nothing)

/-- Modelled from the spec: the two-phase bootstrap and the per-frame draw as one
step function (missing: `HipsSurvey` in `StelHips.cpp`).
`Uninitialized → PropertiesRequested → PropertiesLoaded | PropertiesFailed`; with an
all-sky mosaic declared, `AllskyRequested → AllskyLoaded | AllskyFailed`. -/
def Survey.step (fmt : PropertyFormat) (childPix : TileKey → Fin 4 → Nat) (s : Survey) :
    SurveyEvent → Survey × DrawOutput
  | .start =>
    match s.state with
    | .Uninitialized => ({ s with state := .PropertiesRequested }, DrawOutput.nothing)
    | _ => (s, DrawOutput.nothing)
  | .propertiesFetched result =>
    match s.state with
    | .PropertiesRequested =>
      match result.bind (parseProperties fmt) with
      | some p =>
        ({ s with
            properties := some p
            state := if p.hasAllsky then .AllskyRequested else .PropertiesLoaded },
          DrawOutput.nothing)
      | none => ({ s with state := .PropertiesFailed }, DrawOutput.nothing)
    | _ => (s, DrawOutput.nothing)
  | .allskyFetched result =>
    match s.state with
    | .AllskyRequested =>
      match result with
      | some img => ({ s with allsky := some img, state := .AllskyLoaded }, DrawOutput.nothing)
      | none => ({ s with state := .AllskyFailed }, DrawOutput.nothing)
    | _ => (s, DrawOutput.nothing)
  | .tileFetched key result =>
    ({ s with cache := s.cache.complete key result }, DrawOutput.nothing)
  | .draw visible required => s.draw childPix visible required

/-- Modelled from the spec: a sequence of events and the outputs of the events, in
order (missing: the callers of `HipsSurvey`). -/
def Survey.run (fmt : PropertyFormat) (childPix : TileKey → Fin 4 → Nat) :
    Survey → List SurveyEvent → Survey × List DrawOutput
  | s, [] => (s, [])
  | s, e :: es =>
    let r := s.step fmt childPix e
    let rest := Survey.run fmt childPix r.1 es
    (rest.1, r.2 :: rest.2)

/-- The orders a frame walk bounded by `maxOrder` and `required` may touch: every
visited node is at an order up to both bounds, a node that was split is strictly
below both, and every leaf and every emitted quad is at order
`min maxOrder required`. -/
def Frame.OrdersBounded (maxOrder required : Nat) (fr : Frame) : Prop :=
  (∀ v ∈ fr.visited,
      v.1.order ≤ maxOrder ∧ v.1.order ≤ required ∧
      (v.2 = NodeKind.split → v.1.order < maxOrder ∧ v.1.order < required) ∧
      (v.2 = NodeKind.leaf → v.1.order = min maxOrder required)) ∧
  (∀ q ∈ fr.quads, q.node.order = min maxOrder required)

/-! ## Sample inputs -/

/-- A `QVariant` holding a string. -/
def QVariant.ofString (v : String) : QVariant :=
  { toString := v, toDouble := FP.zero, toFloat := FP.zero, toInt := 0 }

/-- A `QVariant` holding the number `n`, or `-n` when `negative`. -/
def QVariant.ofNumber (negative : Bool) (n : Nat) : QVariant :=
  { toString := ""
    toDouble := if negative then FP.neg (FP.ofNat binary64 n) else FP.ofNat binary64 n
    toFloat := if negative then FP.neg (FP.ofNat binary32 n) else FP.ofNat binary32 n
    toInt := FP.signed negative n }

/-- A catalog entry with the three mandatory keys, frequency 4, frequency derivative
-2 and distance 7, and no period. -/
def sampleMap : QVariantMap :=
  [("designation", QVariant.ofString "J0002+6216"),
   ("RA", QVariant.ofString "00h02m58.17s"),
   ("DE", QVariant.ofString "+62d16m09.4s"),
   ("frequency", QVariant.ofNumber false 4),
   ("pfrequency", QVariant.ofNumber true 2),
   ("distance", QVariant.ofNumber false 7)]

/-- A catalog entry without `DE`. -/
def sampleMapNoDE : QVariantMap :=
  [("designation", QVariant.ofString "J0002+6216"),
   ("RA", QVariant.ofString "00h02m58.17s"),
   ("period", QVariant.ofNumber false 2)]

/-- A catalog entry with a negative distance. -/
def sampleMapNegDistance : QVariantMap :=
  [("designation", QVariant.ofString "J0002+6216"),
   ("RA", QVariant.ofString "00h02m58.17s"),
   ("DE", QVariant.ofString "+62d16m09.4s"),
   ("distance", QVariant.ofNumber true 1)]

/-- A catalog entry with frequency and frequency derivative `2 ^ 600`, and no period. -/
def sampleMapHuge : QVariantMap :=
  [("designation", QVariant.ofString "J0002+6216"),
   ("RA", QVariant.ofString "00h02m58.17s"),
   ("DE", QVariant.ofString "+62d16m09.4s"),
   ("frequency", QVariant.ofNumber false (2 ^ 600)),
   ("pfrequency", QVariant.ofNumber false (2 ^ 600))]

/-- A catalog entry with frequency and frequency derivative `2 ^ (-600)`, and no
period. -/
def sampleMapTiny : QVariantMap :=
  [("designation", QVariant.ofString "J0002+6216"),
   ("RA", QVariant.ofString "00h02m58.17s"),
   ("DE", QVariant.ofString "+62d16m09.4s"),
   ("frequency", { QVariant.invalid with toDouble := FP.fin false (2 ^ 52) 422 }),
   ("pfrequency", { QVariant.invalid with toDouble := FP.fin false (2 ^ 52) 422 })]

/-- A catalog entry with frequency 3 and no period. -/
def sampleMapThree : QVariantMap :=
  [("designation", QVariant.ofString "J0002+6216"),
   ("RA", QVariant.ofString "00h02m58.17s"),
   ("DE", QVariant.ofString "+62d16m09.4s"),
   ("frequency", QVariant.ofNumber false 3)]

/-- The nested numbering of children, `4 * pix + i`, as a sample `childPix`. -/
def sampleChildPix (key : TileKey) (i : Fin 4) : Nat := 4 * key.pix + i.val

/-- A view region that shows only the nodes with pixel index 0. -/
def sampleVisible (key : TileKey) : Bool := decide (key.pix = 0)

/-- Sample key names of a properties resource. -/
def sampleFormat : PropertyFormat :=
  { maxOrderKey := "hips_order"
    tileFormatKey := "hips_tile_format"
    declaresAllsky := fun _ => false }

/-- A properties resource without the maximum order. -/
def sampleResourceNoOrder : PropertiesResource :=
  [("hips_tile_format", "jpeg"), ("hips_tile_width", "512")]

/-- A properties resource with the required keys. -/
def sampleResource : PropertiesResource :=
  [("hips_order", "2"), ("hips_tile_format", "jpeg")]

/-- Events after the bootstrap: two frames and a late tile completion. -/
def sampleEvents : List SurveyEvent :=
  [.draw (fun _ => true) 3, .tileFetched (TileKey.mk 0 0) (some []), .start,
   .propertiesFetched (some sampleResource), .draw sampleVisible 1]

/-- The calls of the capacity-3 scenario of the design text before the fourth request:
keys A, B, C requested in order, each completing before the next request. -/
def sampleCalls : List (TileCache.Call TileKey) :=
  [.get_or_request (TileKey.mk 0 0), .complete (TileKey.mk 0 0) (some []),
   .get_or_request (TileKey.mk 0 1), .complete (TileKey.mk 0 1) (some []),
   .get_or_request (TileKey.mk 0 2), .complete (TileKey.mk 0 2) (some [])]

/-- The mandatory keys of a catalog entry, as tested at `Pulsar.cpp` 69. -/
def QVariantMap.hasMandatoryKeys (map : QVariantMap) : Prop :=
  map.contains "designation" = true ∧ map.contains "RA" = true ∧ map.contains "DE" = true

/-! ## Theorems: floating point -/

/-- The upward search ends at an `F` with `n < 2 ^ 2 ^ F`. -/
theorem levelsAux_spec (fuel F n : Nat) (h : n < 2 ^ 2 ^ (F + fuel)) :
    n < 2 ^ 2 ^ levelsAux fuel F n := by
  induction fuel generalizing F with
  | zero => simpa [levelsAux] using h
  | succ k ih =>
    simp only [levelsAux]
    split
    · assumption
    · apply ih
      have : F + 1 + k = F + (k + 1) := by omega
      rw [this]
      exact h

/-- The binary search returns `r` with `2 ^ r ≤ n < 2 ^ (r + 1)`. -/
theorem log2Aux_spec (f k n : Nat) (h1 : 2 ^ k ≤ n) (h2 : n < 2 ^ (k + 2 ^ f)) :
    2 ^ log2Aux f k n ≤ n ∧ n < 2 ^ (log2Aux f k n + 1) := by
  induction f generalizing k with
  | zero => simpa [log2Aux] using ⟨h1, h2⟩
  | succ g ih =>
    simp only [log2Aux]
    split
    · rename_i hle
      apply ih _ hle
      have : k + 2 ^ g + 2 ^ g = k + 2 ^ (g + 1) := by rw [Nat.pow_succ]; omega
      rw [this]
      exact h2
    · rename_i hlt
      exact ih _ h1 (Nat.lt_of_not_le hlt)

/-- For `n ≠ 0`, `bitLength n` is the number of binary digits of `n`. -/
theorem bitLength_spec (n : Nat) (h : n ≠ 0) :
    2 ^ (bitLength n - 1) ≤ n ∧ n < 2 ^ bitLength n := by
  have hl : n < 2 ^ 2 ^ levelsAux n 0 n := by
    apply levelsAux_spec
    rw [Nat.zero_add]
    exact lt_trans (Nat.lt_two_pow n) (Nat.pow_lt_pow_right (by norm_num) (Nat.lt_two_pow n))
  have := log2Aux_spec (levelsAux n 0 n) 0 n (by simpa using Nat.pos_of_ne_zero h)
    (by simpa using hl)
  simpa [bitLength, h] using this

/-- For `n ≠ 0`, `bitLength n` is `Nat.log2 n + 1`. -/
theorem bitLength_eq_log2 (n : Nat) (h : n ≠ 0) : bitLength n = Nat.log2 n + 1 := by
  obtain ⟨h1, h2⟩ := bitLength_spec n h
  have hb : bitLength n ≠ 0 := by
    intro h0
    rw [h0] at h2
    simp at h2
    exact h h2
  have ha : bitLength n - 1 ≤ Nat.log2 n := (Nat.le_log2 h).2 h1
  have hc : Nat.log2 n < bitLength n := (Nat.log2_lt h).2 h2
  omega

/-- The leading bit of `N`. -/
theorem bitLength_pow_le (N : Nat) (h : N ≠ 0) : 2 ^ (bitLength N - 1) ≤ N :=
  (bitLength_spec N h).1

/-- Rounding never goes below a value of the format: if `c * 2 ^ t ≤ N` with `c` of at
most `prec` bits, the rounded `N` is an infinity or at least `c * 2 ^ t`. -/
theorem FP.round_ge (fmt : FloatFormat) (hp : 0 < fmt.prec) (neg : Bool) (N c t : Nat)
    (hc : c < 2 ^ fmt.prec) (h : c * 2 ^ t ≤ N) :
    FP.round fmt neg N 0 = FP.inf neg ∨
      ∃ m e, FP.round fmt neg N 0 = FP.fin neg m e ∧ c * 2 ^ t ≤ m * 2 ^ e := by
  have key : c * 2 ^ t ≤ N / 2 ^ (bitLength N - fmt.prec) * 2 ^ (bitLength N - fmt.prec) := by
    rcases Nat.lt_or_ge t (bitLength N - fmt.prec) with hs | hs
    rotate_left
    · have h1 : c * 2 ^ (t - (bitLength N - fmt.prec)) ≤ N / 2 ^ (bitLength N - fmt.prec) := by
        rw [Nat.le_div_iff_mul_le (Nat.two_pow_pos _)]
        rw [Nat.mul_assoc, ← Nat.pow_add, Nat.sub_add_cancel hs]
        exact h
      calc c * 2 ^ t = c * 2 ^ (t - (bitLength N - fmt.prec)) * 2 ^ (bitLength N - fmt.prec) := by
            rw [Nat.mul_assoc, ← Nat.pow_add, Nat.sub_add_cancel hs]
        _ ≤ _ := Nat.mul_le_mul_right _ h1
    · have hN : N ≠ 0 := by
        intro h0
        simp [h0, bitLength] at hs
      have hb := bitLength_pow_le N hN
      have hlen : fmt.prec < bitLength N := by omega
      have h1 : 2 ^ (fmt.prec - 1) ≤ N / 2 ^ (bitLength N - fmt.prec) := by
        rw [Nat.le_div_iff_mul_le (Nat.two_pow_pos _), ← Nat.pow_add]
        have : fmt.prec - 1 + (bitLength N - fmt.prec) = bitLength N - 1 := by omega
        rw [this]
        exact hb
      calc c * 2 ^ t ≤ 2 ^ fmt.prec * 2 ^ t := Nat.mul_le_mul_right _ (le_of_lt hc)
        _ = 2 ^ (fmt.prec + t) := by rw [Nat.pow_add]
        _ ≤ 2 ^ (fmt.prec - 1 + (bitLength N - fmt.prec)) :=
            Nat.pow_le_pow_right (by norm_num) (by omega)
        _ = 2 ^ (fmt.prec - 1) * 2 ^ (bitLength N - fmt.prec) := by rw [Nat.pow_add]
        _ ≤ _ := Nat.mul_le_mul_right _ h1
  simp only [FP.round, Nat.sub_zero, Nat.zero_le, max_eq_left]
  generalize hs : bitLength N - fmt.prec = s at key ⊢
  generalize hq : N / 2 ^ s = q at key ⊢
  generalize hm : (if 2 ^ (s - 1) < N % 2 ^ s ∨ N % 2 ^ s = 2 ^ (s - 1) ∧ q % 2 = 1
    then q + 1 else q) = m0
  have hm0 : q ≤ m0 := by
    rw [← hm]; split <;> omega
  have key2 : c * 2 ^ t ≤ m0 * 2 ^ s := le_trans key (Nat.mul_le_mul_right _ hm0)
  split
  · rename_i h2
    split
    · exact Or.inl rfl
    · refine Or.inr ⟨_, _, rfl, ?_⟩
      have : 2 ^ (fmt.prec - 1) * 2 ^ (s + 1) = m0 * 2 ^ s := by
        rw [h2, ← Nat.pow_add, ← Nat.pow_add]
        congr 1
        omega
      rw [this]
      exact key2
  · split
    · exact Or.inl rfl
    · exact Or.inr ⟨_, _, rfl, key2⟩

/-- In `float`, `d + 6.f` is at least `6.f` whenever `0 ≤ d`. -/
theorem FP.six_le_add (d : FP) (hd : FP.le FP.zero d = true) :
    FP.le (FP.ofNat binary32 6) (FP.add binary32 d (FP.ofNat binary32 6)) = true := by
  have h6 : FP.ofNat binary32 6 = FP.fin false 12582912 128 := by decide
  have h0 : FP.zero = FP.fin false 0 0 := rfl
  rw [h6]
  rw [h0] at hd
  cases d with
  | nan => simp [FP.le, FP.lt, FP.eq] at hd
  | inf n =>
    cases n
    · simp [FP.le, FP.lt, FP.add]
    · simp [FP.le, FP.lt, FP.eq] at hd
  | fin n m e =>
    have hpos : 0 ≤ FP.signed n (m * 2 ^ e) := by
      simp only [FP.le, FP.lt, FP.eq, Bool.or_eq_true, decide_eq_true_eq, beq_iff_eq] at hd
      have h00 : FP.signed false (0 * 2 ^ 0) = 0 := by simp [FP.signed]
      rw [h00] at hd
      omega
    simp only [FP.add]
    have hC : FP.signed false (12582912 * 2 ^ 128) = ((12582912 * 2 ^ 128 : Nat) : Int) := by
      simp [FP.signed]
    rw [hC]
    generalize hx : FP.signed n (m * 2 ^ e) = x at hpos ⊢
    have hCpos : (0 : Int) < ((12582912 * 2 ^ 128 : Nat) : Int) := by positivity
    have hne : x + ((12582912 * 2 ^ 128 : Nat) : Int) ≠ 0 := by omega
    have hnn : ¬ (x + ((12582912 * 2 ^ 128 : Nat) : Int) < 0) := by omega
    rw [if_neg hne]
    simp only [hnn, decide_False]
    have hle : 12582912 * 2 ^ 128 ≤ (x + ((12582912 * 2 ^ 128 : Nat) : Int)).natAbs := by
      omega
    rcases FP.round_ge binary32 (by decide) false _ 12582912 128 (by decide) hle with h | ⟨m', e', h, hv⟩
    · rw [h]; simp [FP.le, FP.lt]
    · rw [h]
      have hs1 : FP.signed false (12582912 * 2 ^ 128) = ((12582912 * 2 ^ 128 : Nat) : Int) := by
        simp [FP.signed]
      have hs2 : FP.signed false (m' * 2 ^ e') = ((m' * 2 ^ e' : Nat) : Int) := by
        simp [FP.signed]
      simp only [FP.le, FP.lt, FP.eq, Bool.or_eq_true, decide_eq_true_eq, beq_iff_eq, hs1, hs2]
      have : ((12582912 * 2 ^ 128 : Nat) : Int) ≤ ((m' * 2 ^ e' : Nat) : Int) := by
        exact_mod_cast hv
      omega

/-- Sample values of the model: `6.f`, `3.f` and `1.0`, the `double` quotients `1.0 / 3.0`
(`0x3FD5555555555555`) and `1.0 / 4.0`, and the `float` sum `-1.f + 6.f = 5.f`. -/
theorem FP_samples :
    FP.ofNat binary32 6 = FP.fin false 12582912 128 ∧
    FP.ofNat binary32 3 = FP.fin false 12582912 127 ∧
    FP.ofNat binary64 1 = FP.fin false 4503599627370496 1022 ∧
    FP.div binary64 (FP.ofNat binary64 1) (FP.ofNat binary64 3)
      = FP.fin false 6004799503160661 1020 ∧
    FP.div binary64 (FP.ofNat binary64 1) (FP.ofNat binary64 4)
      = FP.fin false 4503599627370496 1020 ∧
    FP.add binary32 (FP.neg (FP.ofNat binary32 1)) (FP.ofNat binary32 6)
      = FP.ofNat binary32 5 := by
  refine ⟨by decide, by decide, by decide, by decide, by decide, by decide⟩

/-! ## Theorems: `Pulsar` -/

/-- With the mandatory keys present the guard of the constructor is false. -/
theorem ofMap_of_keys (map : QVariantMap) (h : map.hasMandatoryKeys) :
    (!map.contains "designation" || !map.contains "RA" || !map.contains "DE") = false := by
  obtain ⟨h1, h2, h3⟩ := h
  simp [h1, h2, h3]

/-- With a mandatory key missing the guard of the constructor is true. -/
theorem ofMap_of_not_keys (map : QVariantMap) (h : ¬ map.hasMandatoryKeys) :
    (!map.contains "designation" || !map.contains "RA" || !map.contains "DE") = true := by
  unfold QVariantMap.hasMandatoryKeys at h
  cases h1 : map.contains "designation" <;> cases h2 : map.contains "RA" <;>
    cases h3 : map.contains "DE" <;> simp_all

/-- C6 (as stated, refuted): with `distributionMode` on, `getVMagnitude` of a pulsar
built from a regular catalog entry is `3.f`, below `6.f`; and with it off, a catalog
entry with distance -1 gives magnitude `5.f`. -/
theorem getVMagnitude_below_six :
    ¬ (∀ (distributionMode : Bool) (p : Pulsar),
        FP.le (FP.ofNat binary32 6) (p.getVMagnitude distributionMode) = true) ∧
    (Pulsar.ofMap (fun _ => FP.zero) sampleMap).getVMagnitude true = FP.ofNat binary32 3 ∧
    FP.lt (FP.ofNat binary32 3) (FP.ofNat binary32 6) = true ∧
    (Pulsar.ofMap (fun _ => FP.zero) sampleMapNegDistance).getVMagnitude false
      = FP.ofNat binary32 5 ∧
    FP.lt (FP.ofNat binary32 5) (FP.ofNat binary32 6) = true := by
  refine ⟨fun h => ?_, by decide, by decide, by decide, by decide⟩
  have h1 := h true (Pulsar.ofMap (fun _ => FP.zero) sampleMap)
  revert h1
  decide

/-- C6 (amended): `getVMagnitude` is `3.f` when `distributionMode` is on and the `float`
sum `distance + 6.f` when it is off, `getVMagnitudeWithExtinction` is the same value,
and with the mode off and a distance `≥ 0` the magnitude is at least `6.f`. -/
theorem getVMagnitude_spec (distributionMode : Bool) (p : Pulsar) :
    p.getVMagnitude true = FP.ofNat binary32 3 ∧
    p.getVMagnitude false = FP.add binary32 p.distance (FP.ofNat binary32 6) ∧
    p.getVMagnitudeWithExtinction distributionMode = p.getVMagnitude distributionMode ∧
    (FP.le FP.zero p.distance = true →
      FP.le (FP.ofNat binary32 6) (p.getVMagnitude false) = true) := by
  refine ⟨rfl, rfl, rfl, fun hd => ?_⟩
  exact FP.six_le_add p.distance hd

/-- The amended C6 at the sample catalog entry (distance 7, mode off): the magnitude
is `13.f`, at least `6.f`. -/
theorem getVMagnitude_spec_witness :
    FP.le FP.zero (Pulsar.ofMap (fun _ => FP.zero) sampleMap).distance = true ∧
    (Pulsar.ofMap (fun _ => FP.zero) sampleMap).getVMagnitude false = FP.ofNat binary32 13 ∧
    FP.le (FP.ofNat binary32 6)
      ((Pulsar.ofMap (fun _ => FP.zero) sampleMap).getVMagnitude false) = true :=
  ⟨by decide, by decide,
    (getVMagnitude_spec false (Pulsar.ofMap (fun _ => FP.zero) sampleMap)).2.2.2 (by decide)⟩

/-- C7: the constructed pulsar is `initialized` exactly when the map has
"designation", "RA" and "DE"; when one of them is missing the constructed pulsar does
not depend on the map: it is the default object (empty designation and notes, every
numeric attribute 0, glitch -1). -/
theorem ofMap_initialized_iff (getDecAngle : String → FP) (map : QVariantMap) :
    ((Pulsar.ofMap getDecAngle map).initialized = true ↔
      (map.contains "designation" = true ∧ map.contains "RA" = true ∧
        map.contains "DE" = true)) ∧
    (¬ (map.contains "designation" = true ∧ map.contains "RA" = true ∧
        map.contains "DE" = true) →
      Pulsar.ofMap getDecAngle map =
        { initialized := false, designation := "", RA := FP.zero, DE := FP.zero,
          parallax := FP.zero, period := FP.zero, frequency := FP.zero,
          pfrequency := FP.zero, pderivative := FP.zero, dmeasure := FP.zero,
          bperiod := FP.zero, eccentricity := FP.zero, w50 := FP.zero, s400 := FP.zero,
          s600 := FP.zero, s1400 := FP.zero, distance := FP.zero, glitch := -1,
          notes := "" }) := by
  constructor
  · by_cases h : map.hasMandatoryKeys
    · have hk := ofMap_of_keys map h
      unfold QVariantMap.hasMandatoryKeys at h
      simp only [Pulsar.ofMap, hk, Bool.false_eq_true, if_false, true_iff]
      exact h
    · have hk := ofMap_of_not_keys map h
      unfold QVariantMap.hasMandatoryKeys at h
      simp only [Pulsar.ofMap, hk, if_true, Pulsar.defaults, Bool.false_eq_true, false_iff]
      exact h
  · intro h
    have hk := ofMap_of_not_keys map h
    simp only [Pulsar.ofMap, hk, if_true, Pulsar.defaults]

/-- C7 at the sample entries: accepted with the three keys, default object without `DE`
(whose `period` 2 is not read). -/
theorem ofMap_initialized_iff_witness :
    (Pulsar.ofMap (fun _ => FP.zero) sampleMap).initialized = true ∧
    (Pulsar.ofMap (fun _ => FP.zero) sampleMapNoDE).initialized = false ∧
    (Pulsar.ofMap (fun _ => FP.zero) sampleMapNoDE).period = FP.zero ∧
    (Pulsar.ofMap (fun _ => FP.zero) sampleMapNoDE).glitch = -1 := by
  have h1 := (ofMap_initialized_iff (fun _ => FP.zero) sampleMap).1
  have h2 := (ofMap_initialized_iff (fun _ => FP.zero) sampleMapNoDE).2
    (by simp [QVariantMap.contains, sampleMapNoDE])
  refine ⟨h1.2 (by simp [QVariantMap.contains, sampleMap]), ?_, ?_, ?_⟩ <;> rw [h2]

/-- C8 (as stated, refuted): with frequency and frequency derivative `2 ^ 600` the
constructor stores the period derivative `-0.0`, not `-f1 / f ^ 2 = -2 ^ (-600)`; with
both `2 ^ (-600)` it stores `-inf`; and with frequency 3 it stores the `double` nearest
to one third, not `1 / 3`. -/
theorem ofMap_period_inexact :
    (sampleMapHuge.value "frequency").toDouble.toRat binary64 = some ((2 : ℚ) ^ 600) ∧
    (sampleMapHuge.value "pfrequency").toDouble.toRat binary64 = some ((2 : ℚ) ^ 600) ∧
    (Pulsar.ofMap (fun _ => FP.zero) sampleMapHuge).pderivative = FP.fin true 0 0 ∧
    ¬ ((Pulsar.ofMap (fun _ => FP.zero) sampleMapHuge).pderivative.toRat binary64
        = some (-((2 : ℚ) ^ 600) / ((2 : ℚ) ^ 600) ^ 2)) ∧
    (Pulsar.ofMap (fun _ => FP.zero) sampleMapTiny).pderivative = FP.inf true ∧
    (sampleMapThree.value "frequency").toDouble.toRat binary64 = some 3 ∧
    (Pulsar.ofMap (fun _ => FP.zero) sampleMapThree).period
      = FP.fin false 6004799503160661 1020 ∧
    ¬ ((Pulsar.ofMap (fun _ => FP.zero) sampleMapThree).period.toRat binary64
        = some (1 / 3)) := by
  have hf : (sampleMapHuge.value "frequency").toDouble = FP.fin false (2 ^ 52) 1622 := by
    decide
  have hf1 : (sampleMapHuge.value "pfrequency").toDouble = FP.fin false (2 ^ 52) 1622 := by
    decide
  have hpd : (Pulsar.ofMap (fun _ => FP.zero) sampleMapHuge).pderivative = FP.fin true 0 0 := by
    decide
  have h3 : (sampleMapThree.value "frequency").toDouble = FP.fin false (3 * 2 ^ 51) 1023 := by
    decide
  have hp : (Pulsar.ofMap (fun _ => FP.zero) sampleMapThree).period
      = FP.fin false 6004799503160661 1020 := by
    decide
  refine ⟨?_, ?_, hpd, ?_, by decide, ?_, hp, ?_⟩
  · rw [hf]
    simp only [FP.toRat, FP.signed, binary64, Bool.false_eq_true, if_false]
    norm_num
  · rw [hf1]
    simp only [FP.toRat, FP.signed, binary64, Bool.false_eq_true, if_false]
    norm_num
  · rw [hpd]
    simp only [FP.toRat, FP.signed, binary64]
    intro h
    have h2 := Option.some.inj h
    have hne : -((2 : ℚ) ^ 600) / ((2 : ℚ) ^ 600) ^ 2 ≠ 0 :=
      div_ne_zero (neg_ne_zero.2 (by positivity)) (by positivity)
    apply hne
    rw [← h2]
    simp
  · rw [h3]
    simp only [FP.toRat, FP.signed, binary64, Bool.false_eq_true, if_false]
    norm_num
  · rw [hp]
    simp only [FP.toRat, FP.signed, binary64, Bool.false_eq_true, if_false]
    push_cast
    intro h
    have h2 := Option.some.inj h
    rw [div_eq_iff (by positivity)] at h2
    have h4 : (6004799503160661 : ℚ) * 2 ^ 1020 * 3 = 2 ^ 1020 * 2 ^ 54 := by
      have : (2 : ℚ) ^ 1074 = 2 ^ 1020 * 2 ^ 54 := by rw [← pow_add]
      rw [← this]
      linarith
    have h5 : (6004799503160661 : ℚ) * 3 = 2 ^ 54 := by
      have hpos : (0 : ℚ) < 2 ^ 1020 := by positivity
      nlinarith
    norm_num at h5

/-- C8 (amended): for a map with the mandatory keys, a zero period and a frequency
`f > 0`, the constructed pulsar has as period the `double` quotient `1.0 / f`; if
moreover `pderivative` is zero and `pfrequency` is `f1 ≠ 0`, its `pderivative` is
`getP1` of that corrected period and `f1`, which for a period `> 0` is the `double`
product `((-1.0 * period) * period) * f1`.  A non-zero period is kept as read. -/
theorem ofMap_period (getDecAngle : String → FP) (map : QVariantMap)
    (hkeys : map.contains "designation" = true ∧ map.contains "RA" = true ∧
      map.contains "DE" = true) :
    (FP.eq (map.value "period").toDouble FP.zero = true →
      FP.lt FP.zero (map.value "frequency").toDouble = true →
      (Pulsar.ofMap getDecAngle map).period =
          FP.div binary64 (FP.ofNat binary64 1) (map.value "frequency").toDouble ∧
      (FP.eq (map.value "pderivative").toDouble FP.zero = true →
        FP.eq (map.value "pfrequency").toDouble FP.zero = false →
        (Pulsar.ofMap getDecAngle map).pderivative =
            getP1 (Pulsar.ofMap getDecAngle map).period (map.value "pfrequency").toDouble ∧
        (FP.lt FP.zero (Pulsar.ofMap getDecAngle map).period = true →
          (Pulsar.ofMap getDecAngle map).pderivative =
            FP.mul binary64
              (FP.mul binary64
                (FP.mul binary64 (FP.neg (FP.ofNat binary64 1))
                  (Pulsar.ofMap getDecAngle map).period)
                (Pulsar.ofMap getDecAngle map).period)
              (map.value "pfrequency").toDouble))) ∧
    (FP.eq (map.value "period").toDouble FP.zero = false →
      (Pulsar.ofMap getDecAngle map).period = (map.value "period").toDouble) := by
  have hk := ofMap_of_keys map hkeys
  refine ⟨fun hp hf => ?_, fun hp => ?_⟩
  · have hper : (Pulsar.ofMap getDecAngle map).period =
        FP.div binary64 (FP.ofNat binary64 1) (map.value "frequency").toDouble := by
      simp [Pulsar.ofMap, hk, hp, hf]
    refine ⟨hper, fun hpd hf1 => ?_⟩
    have hpder : (Pulsar.ofMap getDecAngle map).pderivative =
        getP1 (Pulsar.ofMap getDecAngle map).period (map.value "pfrequency").toDouble := by
      simp [Pulsar.ofMap, hk, hp, hf, hpd]
    refine ⟨hpder, fun hpos => ?_⟩
    rw [hpder]
    simp [getP1, hpos, hf1]
  · simp [Pulsar.ofMap, hk, hp]

/-- C8 (amended) at the sample entry: frequency 4 and derivative -2 give the period
`0.25` and the period derivative `0.125`. -/
theorem ofMap_period_witness :
    (Pulsar.ofMap (fun _ => FP.zero) sampleMap).period = FP.fin false (2 ^ 52) 1020 ∧
    (Pulsar.ofMap (fun _ => FP.zero) sampleMap).pderivative = FP.fin false (2 ^ 52) 1019 ∧
    (Pulsar.ofMap (fun _ => FP.zero) sampleMap).pderivative =
      FP.mul binary64
        (FP.mul binary64
          (FP.mul binary64 (FP.neg (FP.ofNat binary64 1))
            (Pulsar.ofMap (fun _ => FP.zero) sampleMap).period)
          (Pulsar.ofMap (fun _ => FP.zero) sampleMap).period)
        (sampleMap.value "pfrequency").toDouble :=
  ⟨by decide, by decide,
    (((ofMap_period (fun _ => FP.zero) sampleMap (by decide)).1 (by decide) (by decide)).2
      (by decide) (by decide)).2 (by decide)⟩

/-! ## Theorems: tile cache -/

namespace TileCache

variable {κ : Type}

end TileCache

/-- The capacity-3 scenario of the design text: after A, B, C, D, each completed before
the next request, the cache holds B, C, D and A is evicted. -/
theorem cache_scenario_capacity_three :
    ((TileCache.run (fun _ => false) 3
        (sampleCalls ++ [.get_or_request (TileKey.mk 0 3),
          .complete (TileKey.mk 0 3) (some [])])).tiles.map (fun t => t.key))
      = [TileKey.mk 0 1, TileKey.mk 0 2, TileKey.mk 0 3] := by
  decide

/-- With capacity 1, a second request while the first fetch is in flight evicts the
first tile, and the late completion of the first fetch is dropped. -/
theorem cache_scenario_in_flight :
    ((TileCache.run (fun _ => false) 1
        [.get_or_request (TileKey.mk 0 0), .get_or_request (TileKey.mk 0 1),
         .complete (TileKey.mk 0 0) (some [])]).tiles.map (fun t => (t.key, t.state)))
      = [(TileKey.mk 0 1, TileState.Requested)] := by
  decide

/-- Children of a node: four keys, each at `order + 1`. -/
theorem children_orders (childPix : TileKey → Fin 4 → Nat) (key : TileKey) :
    (children childPix key).length = 4 ∧
    ∀ k ∈ children childPix key, k.order = key.order + 1 := by
  refine ⟨rfl, fun k hk => ?_⟩
  simp only [children, List.mem_cons, List.mem_singleton, List.not_mem_nil, or_false] at hk
  rcases hk with h | h | h | h <;> rw [h] <;> rfl

/-! ## Theorems: per-frame recursion -/

theorem OrdersBounded_culled (M R : Nat) (fr : Frame) (key : TileKey)
    (hM : key.order ≤ M) (hR : key.order ≤ R) (h : fr.OrdersBounded M R) :
    Frame.OrdersBounded M R { fr with visited := fr.visited ++ [(key, NodeKind.culled)] } := by
  refine ⟨fun v hv => ?_, h.2⟩
  rcases List.mem_append.1 hv with hv | hv
  · exact h.1 v hv
  · rw [List.mem_singleton] at hv
    subst hv
    exact ⟨hM, hR, fun hk => (by cases hk), fun hk => (by cases hk)⟩

/-- Logging a split node strictly below both bounds keeps the order bounds. -/
theorem OrdersBounded_split (M R : Nat) (fr : Frame) (key : TileKey)
    (hM : key.order < M) (hR : key.order < R) (h : fr.OrdersBounded M R) :
    Frame.OrdersBounded M R { fr with visited := fr.visited ++ [(key, NodeKind.split)] } := by
  refine ⟨fun v hv => ?_, h.2⟩
  rcases List.mem_append.1 hv with hv | hv
  · exact h.1 v hv
  · rw [List.mem_singleton] at hv
    subst hv
    exact ⟨le_of_lt hM, le_of_lt hR, fun _ => ⟨hM, hR⟩, fun hk => (by cases hk)⟩

/-- Drawing a leaf keeps the order bounds. -/
theorem OrdersBounded_drawLeaf (M R : Nat) (ancestors : List TileKey) (fr : Frame)
    (key : TileKey) (hM : key.order ≤ M) (hR : key.order ≤ R)
    (hleaf : isLeaf M R key = true) (h : fr.OrdersBounded M R) :
    (drawLeaf ancestors key fr).OrdersBounded M R := by
  have hmin : key.order = min M R := by
    simp only [isLeaf, Bool.or_eq_true, decide_eq_true_eq] at hleaf
    omega
  refine ⟨fun v hv => ?_, fun q hq => ?_⟩
  · simp only [drawLeaf] at hv
    rcases List.mem_append.1 hv with hv | hv
    · exact h.1 v hv
    · rw [List.mem_singleton] at hv
      subst hv
      exact ⟨hM, hR, fun hk => (by cases hk), fun _ => hmin⟩
  · simp only [drawLeaf] at hq
    rcases List.mem_append.1 hq with hq | hq
    · exact h.2 q hq
    · rw [List.mem_singleton] at hq
      subst hq
      exact hmin

/-- The recursion from a node within both bounds keeps the order bounds. -/
theorem OrdersBounded_drawTile (visible : TileKey → Bool) (childPix : TileKey → Fin 4 → Nat)
    (M R : Nat) (n : Nat) :
    ∀ (ancestors : List TileKey) (key : TileKey) (fr : Frame), R - key.order = n →
      key.order ≤ M → key.order ≤ R → fr.OrdersBounded M R →
      (drawTile visible childPix M R ancestors key fr).OrdersBounded M R := by
  induction n with
  | zero =>
    intro ancestors key fr hn hM hR h
    rw [drawTile]
    split
    · exact OrdersBounded_culled M R fr key hM hR h
    · split
      · rename_i hleaf
        exact OrdersBounded_drawLeaf M R ancestors fr key hM hR hleaf h
      · rename_i hleaf
        exfalso
        apply hleaf
        simp only [isLeaf, Bool.or_eq_true, decide_eq_true_eq]
        omega
  | succ m ih =>
    intro ancestors key fr hn hM hR h
    rw [drawTile]
    split
    · exact OrdersBounded_culled M R fr key hM hR h
    · split
      · rename_i hleaf
        exact OrdersBounded_drawLeaf M R ancestors fr key hM hR hleaf h
      · rename_i hleaf
        simp only [isLeaf, Bool.or_eq_true, decide_eq_true_eq, not_or, not_le] at hleaf
        have hlt : key.order < M := by omega
        have hc : ∀ i, R - (child childPix key i).order = m := by
          intro i; simp only [child]; omega
        have hcM : ∀ i, (child childPix key i).order ≤ M := by
          intro i; simp only [child]; omega
        have hcR : ∀ i, (child childPix key i).order ≤ R := by
          intro i; simp only [child]; omega
        have h0 := OrdersBounded_split M R fr key hlt hleaf.1 h
        have h1 := ih (key :: ancestors) _ _ (hc 0) (hcM 0) (hcR 0) h0
        have h2 := ih (key :: ancestors) _ _ (hc 1) (hcM 1) (hcR 1) h1
        have h3 := ih (key :: ancestors) _ _ (hc 2) (hcM 2) (hcR 2) h2
        exact ih (key :: ancestors) _ _ (hc 3) (hcM 3) (hcR 3) h3

/-- A whole frame walk satisfies the order bounds. -/
theorem OrdersBounded_drawFrame (visible : TileKey → Bool) (childPix : TileKey → Fin 4 → Nat)
    (M R : Nat) (cache : TileCache TileKey) :
    (drawFrame visible childPix M R cache).OrdersBounded M R := by
  unfold drawFrame
  have hgen : ∀ (l : List Nat) (fr : Frame), fr.OrdersBounded M R →
      (l.foldl (fun fr p => drawTile visible childPix M R [] { order := 0, pix := p } fr)
        fr).OrdersBounded M R := by
    intro l
    induction l with
    | nil => intro fr h; exact h
    | cons p ps ih =>
      intro fr h
      rw [List.foldl_cons]
      apply ih
      exact OrdersBounded_drawTile visible childPix M R (R - 0) [] _ fr rfl
        (Nat.zero_le _) (Nat.zero_le _) h
  apply hgen
  exact ⟨fun v hv => (by cases hv), fun q hq => (by cases hq)⟩

/-- C4: in one frame walk, every visited node and every emitted quad has order at
most `maxOrder`; a node at `maxOrder` passes the leaf test and is never split; with
`maxOrder = 2` and a required order of 3 every emitted quad and every leaf is at
order 2. -/
theorem drawFrame_within_maxOrder (visible : TileKey → Bool)
    (childPix : TileKey → Fin 4 → Nat) (maxOrder required : Nat) (cache : TileCache TileKey) :
    (∀ v ∈ (drawFrame visible childPix maxOrder required cache).visited,
        v.1.order ≤ maxOrder) ∧
    (∀ q ∈ (drawFrame visible childPix maxOrder required cache).quads,
        q.node.order ≤ maxOrder) ∧
    (∀ key : TileKey, key.order = maxOrder → isLeaf maxOrder required key = true) ∧
    (∀ v ∈ (drawFrame visible childPix maxOrder required cache).visited,
        v.1.order = maxOrder → v.2 ≠ NodeKind.split) ∧
    (∀ q ∈ (drawFrame visible childPix 2 3 cache).quads, q.node.order = 2) ∧
    (∀ v ∈ (drawFrame visible childPix 2 3 cache).visited,
        v.2 = NodeKind.leaf → v.1.order = 2) := by
  have h := OrdersBounded_drawFrame visible childPix maxOrder required cache
  have h23 := OrdersBounded_drawFrame visible childPix 2 3 cache
  refine ⟨fun v hv => (h.1 v hv).1, fun q hq => ?_, fun key hk => ?_, fun v hv hM hs => ?_,
    fun q hq => ?_, fun v hv hl => ?_⟩
  · rw [h.2 q hq]
    exact Nat.min_le_left _ _
  · simp [isLeaf, hk]
  · have := ((h.1 v hv).2.2.1 hs).1
    omega
  · exact h23.2 q hq
  · exact (h23.1 v hv).2.2.2 hl

/-- The walk with `maxOrder = 2` and required order 3 does emit: with only pixel 0 in
view, the order-2 node 0 is emitted and nothing else. -/
theorem drawFrame_sample :
    (drawFrame sampleVisible sampleChildPix 2 3 (TileCache.empty 4)).quads =
      [{ node := TileKey.mk 2 0, texture := none }] := by
  have e1 : ((1 : Fin 4) : Nat) = 1 := rfl
  have e2 : ((2 : Fin 4) : Nat) = 2 := rfl
  have e3 : ((3 : Fin 4) : Nat) = 3 := rfl
  simp [drawFrame, List.range, List.range.loop, drawTile, sampleVisible, sampleChildPix, child,
    isLeaf, drawLeaf, TileCache.get_or_request, TileCache.find, TileCache.empty,
    TileState.isLoaded, TileCache.evict_if_needed, TileCache.evictLoop, TileCache.size,
    e1, e2, e3]

/-! ## Theorems: survey bootstrap -/

theorem parseProperties_missing_maxOrder (fmt : PropertyFormat) (res : PropertiesResource)
    (hmissing : res.lookup fmt.maxOrderKey = none) : parseProperties fmt res = none := by
  simp [parseProperties, hmissing]

/-- In `PropertiesFailed` every event keeps the state, the properties and the fetch
log, and draws nothing. -/
theorem step_PropertiesFailed (fmt : PropertyFormat) (childPix : TileKey → Fin 4 → Nat)
    (s : Survey) (e : SurveyEvent) (hs : s.state = SurveyState.PropertiesFailed) :
    (s.step fmt childPix e).1.state = SurveyState.PropertiesFailed ∧
    (s.step fmt childPix e).1.properties = s.properties ∧
    (s.step fmt childPix e).1.cache.issued = s.cache.issued ∧
    (s.step fmt childPix e).2 = DrawOutput.nothing := by
  cases e with
  | start => simp [Survey.step, hs]
  | propertiesFetched result => simp [Survey.step, hs]
  | allskyFetched result => simp [Survey.step, hs]
  | tileFetched key result => simp [Survey.step, hs, TileCache.complete]
  | draw visible required => simp [Survey.step, Survey.draw, hs, SurveyState.drawable]

/-- The same for every sequence of events from `PropertiesFailed`. -/
theorem run_PropertiesFailed (fmt : PropertyFormat) (childPix : TileKey → Fin 4 → Nat)
    (events : List SurveyEvent) :
    ∀ s : Survey, s.state = SurveyState.PropertiesFailed →
      (Survey.run fmt childPix s events).1.state = SurveyState.PropertiesFailed ∧
      (Survey.run fmt childPix s events).1.properties = s.properties ∧
      (Survey.run fmt childPix s events).1.cache.issued = s.cache.issued ∧
      ∀ o ∈ (Survey.run fmt childPix s events).2, o = DrawOutput.nothing := by
  induction events with
  | nil =>
    intro s hs
    exact ⟨hs, rfl, rfl, fun o ho => (by cases ho)⟩
  | cons e es ih =>
    intro s hs
    obtain ⟨h1, h2, h3, h4⟩ := step_PropertiesFailed fmt childPix s e hs
    obtain ⟨i1, i2, i3, i4⟩ := ih _ h1
    simp only [Survey.run]
    refine ⟨i1, i2.trans h2, i3.trans h3, fun o ho => ?_⟩
    rcases List.mem_cons.1 ho with ho | ho
    · rw [ho, h4]
    · exact i4 o ho

/-- C5: a survey whose properties resource lacks the max-order key fails to parse,
enters `PropertiesFailed` and stays there under every later sequence of events; it
never holds properties (in particular no maximum order taken from an
integer-property fallback), issues no tile fetch, and every later `draw` emits no
quad and invokes the callback for no batch. -/
theorem missing_maxOrder_unloadable (fmt : PropertyFormat)
    (childPix : TileKey → Fin 4 → Nat) (capacity : Nat) (res : PropertiesResource)
    (events : List SurveyEvent) (hmissing : res.lookup fmt.maxOrderKey = none) :
    parseProperties fmt res = none ∧
    (Survey.run fmt childPix (Survey.new capacity)
      [.start, .propertiesFetched (some res)]).1.state = SurveyState.PropertiesFailed ∧
    (Survey.run fmt childPix (Survey.new capacity)
      (.start :: .propertiesFetched (some res) :: events)).1.state
        = SurveyState.PropertiesFailed ∧
    (Survey.run fmt childPix (Survey.new capacity)
      (.start :: .propertiesFetched (some res) :: events)).1.properties = none ∧
    (∀ fallback : Int,
      ((Survey.run fmt childPix (Survey.new capacity)
        (.start :: .propertiesFetched (some res) :: events)).1.properties.map
          (fun p => (p.maxOrder : Int))) ≠ some (getPropertyInt res fmt.maxOrderKey fallback)) ∧
    (Survey.run fmt childPix (Survey.new capacity)
      (.start :: .propertiesFetched (some res) :: events)).1.cache.issued = [] ∧
    (∀ o ∈ (Survey.run fmt childPix (Survey.new capacity)
        (.start :: .propertiesFetched (some res) :: events)).2,
      o.quads = [] ∧ o.callbacks = []) := by
  have hparse := parseProperties_missing_maxOrder fmt res hmissing
  have hfail : ((((Survey.new capacity).step fmt childPix .start).1).step fmt childPix
      (.propertiesFetched (some res))).1.state = SurveyState.PropertiesFailed := by
    simp [Survey.step, Survey.new, hparse]
  have hprops : ((((Survey.new capacity).step fmt childPix .start).1).step fmt childPix
      (.propertiesFetched (some res))).1.properties = none := by
    simp [Survey.step, Survey.new, hparse]
  have hissued : ((((Survey.new capacity).step fmt childPix .start).1).step fmt childPix
      (.propertiesFetched (some res))).1.cache.issued = [] := by
    simp [Survey.step, Survey.new, hparse, TileCache.empty]
  have hout1 : ((Survey.new capacity).step fmt childPix .start).2 = DrawOutput.nothing := by
    simp [Survey.step, Survey.new]
  have hout2 : ((((Survey.new capacity).step fmt childPix .start).1).step fmt childPix
      (.propertiesFetched (some res))).2 = DrawOutput.nothing := by
    simp [Survey.step, Survey.new, hparse]
  obtain ⟨r1, r2, r3, r4⟩ := run_PropertiesFailed fmt childPix events _ hfail
  have hp : (Survey.run fmt childPix (Survey.new capacity)
      (.start :: .propertiesFetched (some res) :: events)).1.properties = none := by
    simp only [Survey.run]
    exact r2.trans hprops
  refine ⟨hparse, ?_, ?_, hp, ?_, ?_, ?_⟩
  · simp only [Survey.run]
    exact hfail
  · simp only [Survey.run]
    exact r1
  · intro fallback
    rw [hp]
    simp
  · simp only [Survey.run]
    exact r3.trans hissued
  · intro o ho
    simp only [Survey.run] at ho
    rcases List.mem_cons.1 ho with ho | ho
    · rw [ho, hout1]; exact ⟨rfl, rfl⟩
    · rcases List.mem_cons.1 ho with ho | ho
      · rw [ho, hout2]; exact ⟨rfl, rfl⟩
      · rw [r4 o ho]; exact ⟨rfl, rfl⟩

/-- C5 at the sample resource without `hips_order`, followed by the sample events. -/
theorem missing_maxOrder_unloadable_witness :
    (Survey.run sampleFormat sampleChildPix (Survey.new 4)
      (.start :: .propertiesFetched (some sampleResourceNoOrder) :: sampleEvents)).1.state
        = SurveyState.PropertiesFailed ∧
    (∀ o ∈ (Survey.run sampleFormat sampleChildPix (Survey.new 4)
        (.start :: .propertiesFetched (some sampleResourceNoOrder) :: sampleEvents)).2,
      o.quads = [] ∧ o.callbacks = []) :=
  have h := missing_maxOrder_unloadable sampleFormat sampleChildPix 4 sampleResourceNoOrder
    sampleEvents (by decide)
  ⟨h.2.2.1, h.2.2.2.2.2.2⟩

/-- With the max-order key present the same bootstrap reaches a drawable state. -/
theorem bootstrap_sample :
    (Survey.run sampleFormat sampleChildPix (Survey.new 4)
      [.start, .propertiesFetched (some sampleResource)]).1.state
        = SurveyState.PropertiesLoaded ∧
    (Survey.run sampleFormat sampleChildPix (Survey.new 4)
      [.start, .propertiesFetched (some sampleResource)]).1.properties
        = some { maxOrder := 2, tileFormat := "jpeg", hasAllsky := false } := by
  constructor <;> decide

end Stellarium
